import Mathlib

set_option maxRecDepth 8000

/-!
Shallow embedding of the virtual-memory core of the rp4os kernel
(address/region model, page allocator, mapping record, translation table
descriptors, MMU enable state machine), together with proofs settling the
frozen claims about it.

Machine integers: Rust `usize`/`u64` are 64-bit.  They are embedded as `Nat`
with explicit `2 ^ 64` bounds at the points where the source performs checked
arithmetic, and an explicit two-complement reinterpretation where the source
casts `usize` to `isize`.
-/

namespace Rp4os

/-- Exclusive upper bound of `usize`/`u64` values (64-bit machine). -/
def USIZE_BOUND : Nat := 2 ^ 64

/-- Rust `usize::checked_add`. -/
def checkedAdd (a b : Nat) : Option Nat :=
  if a + b < USIZE_BOUND then some (a + b) else none

/-- Rust `usize::checked_sub`. -/
def checkedSub (a b : Nat) : Option Nat :=
  if b ≤ a then some (a - b) else none

/-- Rust `usize::checked_mul`. -/
def checkedMul (a b : Nat) : Option Nat :=
  if a * b < USIZE_BOUND then some (a * b) else none

/-- Rust `count as isize` for a `usize` value `n < 2^64`: two-complement
reinterpretation into an `Int`. -/
def usizeAsIsize (n : Nat) : Int :=
  if n < 2 ^ 63 then (n : Int) else (n : Int) - (2 ^ 64 : Int)

/-! ### Granule and window sizing

`MemorySize<SIZE>` (`TranslationGranule` in the generic code) exposes
`SIZE`, `MASK = SIZE - 1` and `SHIFT = log2 SIZE`.  The kernel granule
(`MSKernel`, `bsp/memory/mmu.rs`) is 64 KiB; a level-2 window (`MS512MiB`)
spans 512 MiB. -/

/-- `MS64KiB::SIZE` = `MSKernel::SIZE` (64 KiB granule). -/
def GRANULE_SIZE : Nat := 64 * 1024

/-- `MS64KiB::SHIFT`. -/
def GRANULE_SHIFT : Nat := 16

/-- `MS512MiB::SIZE`. -/
def MS512MiB_SIZE : Nat := 512 * 1024 * 1024

/-- `MS512MiB::SHIFT`. -/
def MS512MiB_SHIFT : Nat := 29

/-- `MS512MiB::MASK`. -/
def MS512MiB_MASK : Nat := MS512MiB_SIZE - 1

/-- `KernelVirtAddrSpace = AddressSpace<{ 1024 * 1024 * 1024 }>` (1 GiB),
from `bsp/memory/mmu.rs`. -/
def KERNEL_VIRT_ADDR_SPACE_SIZE : Nat := 1024 * 1024 * 1024

/-- Number of level-2 windows of the kernel translation table:
`AddressSpace::SIZE >> MS512MiB::SHIFT`
(`AssociatedTranslationTable for AddressSpace<S>`). -/
def KERNEL_NUM_TABLES : Nat := KERNEL_VIRT_ADDR_SPACE_SIZE >>> MS512MiB_SHIFT

/-! ### Address and region model (`memory/mmu/mod.rs`)

A `PageAddress` is represented by its raw address value (a `Nat`); the
page-alignment invariant of the Rust wrapper is carried as a hypothesis
where a claim needs it. -/

/-- `PageAddress::checked_offset(count)`: `self ± count * granule` with
checked arithmetic, `none` on overflow. -/
def checkedOffset (addr : Nat) (count : Int) : Option Nat :=
  if count = 0 then some addr
  else
    match checkedMul count.natAbs GRANULE_SIZE with
    | none => none
    | some delta =>
      if 0 < count then checkedAdd addr delta else checkedSub addr delta

/-- `MemoryRegion`: a `[start, end)` range in page units.  Fields hold the
raw addresses of the start page and the exclusive end page. -/
structure MemoryRegion where
  start : Nat
  end_exclusive : Nat
deriving DecidableEq, Repr

namespace MemoryRegion

/-- `MemoryRegion::num_pages` (`PageAddress::steps_between`, which shifts
the byte distance right by the granule shift). -/
def numPages (r : MemoryRegion) : Nat :=
  (r.end_exclusive - r.start) >>> GRANULE_SHIFT

/-- `MemoryRegion::size`. -/
def size (r : MemoryRegion) : Nat :=
  r.end_exclusive - r.start

/-- `MemoryRegion::end_inclusive_page_addr`:
`end_exclusive.checked_offset(-1).unwrap()`.  The `unwrap` panics when the
offset underflows, hence the `Option`. -/
def endInclusivePageAddr (r : MemoryRegion) : Option Nat :=
  checkedOffset r.end_exclusive (-1)

/-- Membership of a page address in `self.as_range()`
(`Range::contains`: `start <= x && x < end`). -/
def rangeContains (r : MemoryRegion) (addr : Nat) : Bool :=
  decide (r.start ≤ addr) && decide (addr < r.end_exclusive)

/-- `MemoryRegion::overlaps`: tests whether the start page or the inclusive
last page of `other` lies in `self.as_range()`.  `none` models the panic of
the inner `unwrap` when `other` starts at address zero and is empty. -/
def overlaps (r other : MemoryRegion) : Option Bool :=
  match other.endInclusivePageAddr with
  | none => none
  | some lastIncl => some (r.rangeContains other.start || r.rangeContains lastIncl)

/-- The pages of `self.as_range()`, in iteration order: successive
granule-stepped addresses while below `end_exclusive`. -/
def pages (r : MemoryRegion) : List Nat :=
  (List.range ((r.end_exclusive - r.start + (GRANULE_SIZE - 1)) / GRANULE_SIZE)).map
    (fun i => r.start + GRANULE_SIZE * i)

/-- `MemoryRegion::take_first_n_pages`.  Returns the final value of `self`
(the receiver is `&mut`) together with the `Result`: on success the split-off
prefix region, on failure the error string.  The error paths return before
the receiver is mutated, which the first component mirrors. -/
def takeFirstNPages (r : MemoryRegion) (numPages : Nat) :
    MemoryRegion × Except String MemoryRegion :=
  let count := numPages
  match checkedOffset r.start (usizeAsIsize count) with
  | none => (r, .error "Overflow while calculating left_end_exclusive")
  | some leftEndExclusive =>
    if r.end_exclusive < leftEndExclusive then
      (r, .error "Not enough free pages")
    else
      (⟨leftEndExclusive, r.end_exclusive⟩, .ok ⟨r.start, leftEndExclusive⟩)

end MemoryRegion

/-! ### Page allocator (`memory/mmu/page_alloc.rs`) -/

/-- `PageAllocator`: a lazily initialized pool. -/
structure PageAllocator where
  pool : Option MemoryRegion
deriving DecidableEq, Repr

namespace PageAllocator

/-- `PageAllocator::new`. -/
def new : PageAllocator := ⟨none⟩

/-- `PageAllocator::init`: double-init is a logged warning, the pool is left
as first set. -/
def init (a : PageAllocator) (pool : MemoryRegion) : PageAllocator :=
  match a.pool with
  | some _ => a
  | none => ⟨some pool⟩

/-- `PageAllocator::alloc`: fails when uninitialized, otherwise delegates to
`take_first_n_pages`.  First component is the final allocator state. -/
def alloc (a : PageAllocator) (numRequestedPages : Nat) :
    PageAllocator × Except String MemoryRegion :=
  match a.pool with
  | none => (a, .error "Allocator not initialized")
  | some pool =>
    let (pool2, res) := pool.takeFirstNPages numRequestedPages
    (⟨some pool2⟩, res)

end PageAllocator

/-- Sequentially run `take_first_n_pages` requests against a pool, exactly as
repeated `PageAllocator::alloc` calls would: each request acts on the pool
left by the previous one (which is unchanged after a failed request).
Returns the per-request outcomes and the final pool. -/
def runAllocs (r : MemoryRegion) : List Nat → List (Option MemoryRegion) × MemoryRegion
  | [] => ([], r)
  | n :: ns =>
    let (r2, res) := r.takeFirstNPages n
    let (rest, rf) := runAllocs r2 ns
    (res.toOption :: rest, rf)

/-- Expected outcomes of a bump-allocation request sequence on the pool
`[s, e)`: a request of `n` pages succeeds exactly when `s + n * granule ≤ e`,
returns `[s, s + n * granule)` and advances the cursor; a failed request
leaves the cursor in place. -/
def specAllocs (s e : Nat) : List Nat → List (Option MemoryRegion)
  | [] => []
  | n :: ns =>
    if s + n * GRANULE_SIZE ≤ e then
      some ⟨s, s + n * GRANULE_SIZE⟩ :: specAllocs (s + n * GRANULE_SIZE) e ns
    else
      none :: specAllocs s e ns

/-! ### Memory attributes (`memory/mmu/mod.rs`)

The generic code names the third field `execute_never`; the architectural
translation-table file, which the attribute claims cite, names it
`executable` (`true` = executable).  The architectural name is used here. -/

/-- `MemAttributes`. -/
inductive MemAttributes where
  | CacheableDRAM
  | Device
deriving DecidableEq, Repr

/-- `AccessPermissions`. -/
inductive AccessPermissions where
  | ReadOnly
  | ReadWrite
deriving DecidableEq, Repr

/-- `AttributeFields`. -/
structure AttributeFields where
  mem_attributes : MemAttributes
  acc_perms : AccessPermissions
  executable : Bool
deriving DecidableEq, Repr

/-! ### Stage-1 page descriptors (`arch/aarch64/mmu/translation_table.rs`)

A descriptor is a `u64` value.  The `STAGE1_PAGE_DESCRIPTOR` bit fields:
UXN bit 54, PXN bit 53, OUTPUT_ADDR_64KiB bits [47:16], AF bit 10,
SH bits [9:8], AP bits [7:6], AttrIndx bits [4:2], TYPE bit 1, VALID bit 0.
`FieldValue` composition masks each value to its field width, shifts it to
the field offset and ORs the pieces; `write` stores exactly that value. -/

/-- MAIR index constants (`mod mair`). -/
def mairDEVICE : Nat := 0

/-- MAIR index of normal cacheable memory (`mair::NORMAL`). -/
def mairNORMAL : Nat := 1

/-- `From<AttributeFields> for FieldValue<u64, STAGE1_PAGE_DESCRIPTOR>`:
the encoder.  SH and AttrIndx from the memory class, AP from the access
permissions, PXN as the inverse of `executable`, UXN always forced true. -/
def attributeFieldsToDesc (attr : AttributeFields) : Nat :=
  let shAndAttrIndx :=
    match attr.mem_attributes with
    | .CacheableDRAM => (0b11 <<< 8) ||| ((mairNORMAL &&& 0b111) <<< 2)
    | .Device => (0b10 <<< 8) ||| ((mairDEVICE &&& 0b111) <<< 2)
  let ap :=
    match attr.acc_perms with
    | .ReadOnly => 0b10 <<< 6
    | .ReadWrite => 0b00 <<< 6
  let pxn := if attr.executable then 0 <<< 53 else 1 <<< 53
  let uxn := 1 <<< 54
  shAndAttrIndx ||| ap ||| pxn ||| uxn

/-- `PageDescriptor::new`: OUTPUT_ADDR from the physical page address,
AF true, TYPE page, VALID true, plus the encoded attribute fields. -/
def pageDescriptorNew (physOutputAddr : Nat) (attr : AttributeFields) : Nat :=
  let shifted := physOutputAddr >>> GRANULE_SHIFT
  ((shifted &&& (2 ^ 32 - 1)) <<< 16) ||| (1 <<< 10) ||| (1 <<< 1) ||| 1 |||
    attributeFieldsToDesc attr

/-- `PageDescriptor::is_valid`: the VALID bit (bit 0) is set. -/
def descIsValid (v : Nat) : Bool :=
  v &&& 1 ≠ 0

/-- `TryFrom<InMemoryRegister<u64, STAGE1_PAGE_DESCRIPTOR>> for
AttributeFields`: the decoder.  AttrIndx 1 is CacheableDRAM and 0 is Device;
AP 0b10 is ReadOnly and 0b00 is ReadWrite; `executable` is read as
`PXN > 0` (note: the encoder stores PXN as the inverse of `executable`). -/
def tryAttributesFromDesc (v : Nat) : Except String AttributeFields := do
  let memAttributes ←
    match (v >>> 2) &&& 0b111 with
    | 1 => pure MemAttributes.CacheableDRAM
    | 0 => pure MemAttributes.Device
    | _ => Except.error "Unexpected memory attribute"
  let accPerms ←
    match (v >>> 6) &&& 0b11 with
    | 0b10 => pure AccessPermissions.ReadOnly
    | 0b00 => pure AccessPermissions.ReadWrite
    | _ => Except.error "Unexpected access permission"
  let executable := ((v >>> 53) &&& 1) > 0
  pure ⟨memAttributes, accPerms, executable⟩

/-! ### Translation table (`arch/aarch64/mmu/translation_table.rs`)

`FixedSizeTranslationTable<NUM_TABLES>` holds `NUM_TABLES` level-3 arrays of
8192 page descriptors each, a level-2 array of `NUM_TABLES` table
descriptors, and an `initialized` flag.  Descriptor arrays are embedded as
index functions; the level-2 table descriptors produced by `init` carry the
link-time physical placement of the level-3 arrays, which is supplied as a
parameter (`lvl3PhysStart`).  No claim reads the level-2 values. -/

/-- `TableDescriptor::from_phys_addr`: NEXT_LEVEL_TABLE_ADDR (bits [47:16])
from the shifted physical address, TYPE table (bit 1), VALID (bit 0). -/
def tableDescriptorFromPhysAddr (physNextLvlTableAddr : Nat) : Nat :=
  (((physNextLvlTableAddr >>> GRANULE_SHIFT) &&& (2 ^ 32 - 1)) <<< 16) |||
    (1 <<< 1) ||| 1

/-- `FixedSizeTranslationTable<NUM_TABLES>`. -/
structure TranslationTable where
  numTables : Nat
  lvl3 : Nat → Nat → Nat
  lvl2 : Nat → Nat
  initialized : Bool

/-- `FixedSizeTranslationTable::new`: all descriptors zeroed, not
initialized. -/
def TranslationTable.new (numTables : Nat) : TranslationTable :=
  ⟨numTables, fun _ _ => 0, fun _ => 0, false⟩

/-- `TranslationTable::init`: idempotent; populates each level-2 entry with
a table descriptor pointing at the physical start of its level-3 array
(`lvl3PhysStart`, a link-time placement), then sets `initialized`. -/
def TranslationTable.init (t : TranslationTable) (lvl3PhysStart : Nat → Nat) :
    TranslationTable :=
  if t.initialized then t
  else
    { t with
      lvl2 := fun i => tableDescriptorFromPhysAddr (lvl3PhysStart i)
      initialized := true }

/-- `FixedSizeTranslationTable::lvl2_lvl3_index_from_page_addr`: level-2
index is the address shifted by the 512 MiB shift, level-3 index the
masked remainder shifted by the granule shift; out of bounds when the
level-2 index exceeds `NUM_TABLES - 1`. -/
def TranslationTable.lvl2Lvl3Index (t : TranslationTable) (virtPageAddr : Nat) :
    Except String (Nat × Nat) :=
  let lvl2Index := virtPageAddr >>> MS512MiB_SHIFT
  let lvl3Index := (virtPageAddr &&& MS512MiB_MASK) >>> GRANULE_SHIFT
  if t.numTables - 1 < lvl2Index then
    .error "Virtual page is out of bounds of translation table"
  else
    .ok (lvl2Index, lvl3Index)

/-- `FixedSizeTranslationTable::set_descriptor`: refuses to overwrite an
already valid descriptor.  First component is the final table state (the
error paths leave it unchanged). -/
def TranslationTable.setDescriptor (t : TranslationTable) (virtPageAddr : Nat)
    (newDesc : Nat) : TranslationTable × Option String :=
  match t.lvl2Lvl3Index virtPageAddr with
  | .error e => (t, some e)
  | .ok (lvl2Index, lvl3Index) =>
    if descIsValid (t.lvl3 lvl2Index lvl3Index) then
      (t, some "Virtual page is already mapped")
    else
      ({ t with
          lvl3 := fun i j =>
            if i = lvl2Index ∧ j = lvl3Index then newDesc else t.lvl3 i j },
        none)

/-- The per-page loop of `map_at`: for each physical/virtual page pair,
build the page descriptor and store it, stopping at the first error (the
`?` operator).  First component is the final table state, the writes before
the failing page included. -/
def TranslationTable.mapPages (t : TranslationTable)
    (pairs : List (Nat × Nat)) (attr : AttributeFields) :
    TranslationTable × Option String :=
  match pairs with
  | [] => (t, none)
  | (physPageAddr, virtPageAddr) :: rest =>
    let newDesc := pageDescriptorNew physPageAddr attr
    match t.setDescriptor virtPageAddr newDesc with
    | (t2, none) => t2.mapPages rest attr
    | (t2, some e) => (t2, some e)

/-- `FixedSizeTranslationTable::map_at`.  The `assert!(self.initialized)`
panic is modelled as an error outcome; the size check and the physical
address-space bound check (`physAddrSpaceEndExclusive`) come before the
per-page loop.  First component is the final table state. -/
def TranslationTable.mapAt (t : TranslationTable)
    (virtRegion physRegion : MemoryRegion) (attr : AttributeFields)
    (physAddrSpaceEndExclusive : Nat) : TranslationTable × Option String :=
  if !t.initialized then
    (t, some "Translation tables not initialized")
  else if virtRegion.size ≠ physRegion.size then
    (t, some "Tried to map memory regions with unequal sizes")
  else if physAddrSpaceEndExclusive < physRegion.end_exclusive then
    (t, some "Tried to map outside of physical address space")
  else
    t.mapPages (physRegion.pages.zip virtRegion.pages) attr

/-- `FixedSizeTranslationTable::get_descriptor`. -/
def TranslationTable.getDescriptor (t : TranslationTable) (virtPageAddr : Nat) :
    Except String Nat :=
  match t.lvl2Lvl3Index virtPageAddr with
  | .error e => .error e
  | .ok (lvl2Index, lvl3Index) => .ok (t.lvl3 lvl2Index lvl3Index)

/-- `TranslationTable::try_page_attributes`: looks the descriptor up, fails
when it is invalid, otherwise decodes its attribute fields. -/
def TranslationTable.tryPageAttributes (t : TranslationTable) (virtPageAddr : Nat) :
    Except String AttributeFields :=
  match t.getDescriptor virtPageAddr with
  | .error e => .error e
  | .ok desc =>
    if !descIsValid desc then .error "Page marked invalid"
    else tryAttributesFromDesc desc

/-- Physical address-space end of the board.  The function
`bsp::memory::phys_addr_space_end_exclusive_addr` itself is not among the
provided sources; its value is `map::END_INCLUSIVE + 1` with
`END_INCLUSIVE = 0xFFFF_FFFF` from `bsp/memory/mod.rs` ("End address + 1
must be power of two"). -/
def physAddrSpaceEndExclusiveAddr : Nat := 0xFFFFFFFF + 1

/-! ### Mapping record (`memory/mmu/mapping_record.rs`) -/

/-- `MAX_MAPPINGS`. -/
def MAX_MAPPINGS : Nat := 20

/-- `MappingRecordEntry`: up to 5 user-name slots plus the recorded
mapping data. -/
structure MappingRecordEntry where
  users : List (Option String)
  phys_start_addr : Nat
  virt_start_addr : Nat
  num_pages : Nat
  attribute_fields : AttributeFields
deriving DecidableEq, Repr

namespace MappingRecordEntry

/-- `MappingRecordEntry::new`: first user slot holds the name; physical and
virtual starts from the regions; the page count from the physical region. -/
def new (name : String) (virtRegion physRegion : MemoryRegion)
    (attr : AttributeFields) : MappingRecordEntry :=
  ⟨[some name, none, none, none, none],
    physRegion.start, virtRegion.start, physRegion.numPages, attr⟩

/-- `MappingRecordEntry::add_user`: fills the first free user slot, fails
when all 5 are taken. -/
def addUser (e : MappingRecordEntry) (user : String) :
    MappingRecordEntry × Option String :=
  match e.users.findIdx? (fun u => u.isNone) with
  | none => (e, some "Storage for user info exhausted")
  | some i => ({ e with users := e.users.set i (some user) }, none)

end MappingRecordEntry

/-- `MappingRecords`: `MAX_MAPPINGS` optional entry slots. -/
structure MappingRecords where
  inner : List (Option MappingRecordEntry)
deriving DecidableEq, Repr

namespace MappingRecords

/-- `MappingRecords::new`: all slots empty. -/
def new : MappingRecords :=
  ⟨List.replicate MAX_MAPPINGS none⟩

/-- `MappingRecords::size`: number of occupied slots. -/
def size (r : MappingRecords) : Nat :=
  (r.inner.filter (fun o => o.isSome)).length

/-- The sort key of `MappingRecords::sort`: `item.unwrap().virt_start_addr`.
The `unwrap` panics on an empty slot; in every reachable state the occupied
slots form a prefix, so the key is only ever taken of occupied slots (the
`none` branch is arbitrary). -/
def sortKey (o : Option MappingRecordEntry) : Nat :=
  match o with
  | some e => e.virt_start_addr
  | none => 0

/-- `is_sorted_by_key` over adjacent slots. -/
def isSortedByKey : List (Option MappingRecordEntry) → Bool
  | [] => true
  | [_] => true
  | a :: b :: rest => decide (sortKey a ≤ sortKey b) && isSortedByKey (b :: rest)

/-- Insertion step of the model sort. -/
def insertByKey (x : Option MappingRecordEntry) :
    List (Option MappingRecordEntry) → List (Option MappingRecordEntry)
  | [] => [x]
  | y :: ys => if sortKey x ≤ sortKey y then x :: y :: ys else y :: insertByKey x ys

/-- Sorting by `sortKey` (stands in for `sort_unstable_by_key`, whose
observable result is a permutation sorted by the key). -/
def sortByKey : List (Option MappingRecordEntry) → List (Option MappingRecordEntry)
  | [] => []
  | x :: xs => insertByKey x (sortByKey xs)

/-- `MappingRecords::sort`: sorts the first `size` slots by ascending
virtual start address, skipping the sort when they are already ordered. -/
def sort (r : MappingRecords) : MappingRecords :=
  let upperBoundExclusive := r.size
  let entries := r.inner.take upperBoundExclusive
  if isSortedByKey entries then r
  else ⟨sortByKey entries ++ r.inner.drop upperBoundExclusive⟩

/-- Index of the first free slot (`MappingRecords::find_next_free`). -/
def findNextFreeIdx (r : MappingRecords) : Option Nat :=
  r.inner.findIdx? (fun o => o.isNone)

/-- `MappingRecords::find_device_record`: linear scan over the occupied
slots restricted to Device-class entries, matching physical start address
and page count exactly. -/
def findDeviceRecord (r : MappingRecords) (physRegion : MemoryRegion) :
    Option MappingRecordEntry :=
  ((r.inner.filterMap id).filter
      (fun e => decide (e.attribute_fields.mem_attributes = MemAttributes.Device))).find?
    (fun e =>
      decide (e.phys_start_addr = physRegion.start) &&
        decide (e.num_pages = physRegion.numPages))

/-- `MappingRecords::add`: fails when no slot is free, otherwise writes the
new entry into the first free slot and re-sorts.  First component is the
final state (unchanged on failure). -/
def add (r : MappingRecords) (name : String)
    (virtRegion physRegion : MemoryRegion) (attr : AttributeFields) :
    MappingRecords × Option String :=
  match r.findNextFreeIdx with
  | none => (r, some "Storage for mapping info exhausted")
  | some i =>
    let entry := MappingRecordEntry.new name virtRegion physRegion attr
    (sort ⟨r.inner.set i (some entry)⟩, none)

end MappingRecords

/-! ### MMU enable (`arch/aarch64/mmu/mod.rs`)

The hardware registers the enable path touches are embedded as a state
record; the feature register `ID_AA64MMFR0_EL1` is a read-only input.
Instruction barriers do not change register state and are not modelled. -/

/-- `MMUEnableError`. -/
inductive MMUEnableError where
  | AlreadyEnabled
  | Other (msg : String)
deriving DecidableEq, Repr

/-- The EL1 system registers programmed by `enable_mmu_and_caching`. -/
structure MmuRegisters where
  mair_el1 : Nat
  tcr_el1 : Nat
  ttbr0_el1 : Nat
  sctlr_el1 : Nat
  id_aa64mmfr0_el1 : Nat
deriving DecidableEq, Repr

namespace MmuRegisters

/-- `Aarch64Mmu::is_enabled`: `SCTLR_EL1.matches_all(SCTLR_EL1::M::Enable)`
(M is bit 0). -/
def isEnabled (s : MmuRegisters) : Bool :=
  s.sctlr_el1 &&& 1 = 1

/-- `ID_AA64MMFR0_EL1.matches_all(TGran64::Supported)`: the TGran64 field
(bits [27:24]) equals 0. -/
def tgran64Supported (s : MmuRegisters) : Bool :=
  (s.id_aa64mmfr0_el1 >>> 24) &&& 0xF = 0

/-- The MAIR_EL1 value of `set_up_mair`: Attr1 (bits [15:8]) normal
write-back non-transient read/write-allocate (0xFF), Attr0 (bits [7:0])
device nGnRE (0x04). -/
def mairWriteValue : Nat := (0xFF <<< 8) ||| 0x04

/-- The TCR_EL1 value of `configure_translation_control` for the 1 GiB
kernel address space: T0SZ = 64 - 30, EPD0 walks enabled, IRGN0/ORGN0
write-back, SH0 inner, TG0 64 KiB, A1 TTBR0, EPD1 walks disabled, IPS 40
bits, TBI0 used. -/
def tcrWriteValue : Nat :=
  (64 - 30) ||| (1 <<< 8) ||| (1 <<< 10) ||| (3 <<< 12) ||| (1 <<< 14) |||
    (1 <<< 23) ||| (2 <<< 32) ||| (1 <<< 37)

/-- `TTBR0_EL1.set_baddr`: the BADDR field (bits [47:1]) receives the
shifted base address. -/
def ttbr0WriteValue (physTablesBaseAddr : Nat) : Nat :=
  ((physTablesBaseAddr >>> 1) &&& (2 ^ 47 - 1)) <<< 1

/-- `SCTLR_EL1.modify(M::Enable + C::Cacheable + I::Cacheable)`: sets bits
0 (M), 2 (C) and 12 (I), leaving the rest. -/
def sctlrEnableBits : Nat := 1 ||| (1 <<< 2) ||| (1 <<< 12)

/-- `Aarch64Mmu::enable_mmu_and_caching`: fails with `AlreadyEnabled` when
the regime is already active, then with a platform error when the 64 KiB
granule is unsupported; otherwise programs MAIR, TTBR0, TCR and finally
enables translation and caching in SCTLR.  First component is the final
register state (unchanged on both error paths). -/
def enableMmuAndCaching (s : MmuRegisters) (physTablesBaseAddr : Nat) :
    MmuRegisters × Option MMUEnableError :=
  if s.isEnabled then
    (s, some .AlreadyEnabled)
  else if !s.tgran64Supported then
    (s, some (.Other "Translation granule not supported in HW"))
  else
    ({ s with
        mair_el1 := mairWriteValue
        ttbr0_el1 := ttbr0WriteValue physTablesBaseAddr
        tcr_el1 := tcrWriteValue
        sctlr_el1 := s.sctlr_el1 ||| sctlrEnableBits },
      none)

end MmuRegisters

/-! ## Claims -/

deriving instance DecidableEq for Except

/-- C1: per the spec, `map_at` followed by `try_page_attributes` must
reproduce `mem_attributes`, `acc_perms` and `executable` exactly.  The code
violates this for `executable`: evaluated at one page mapped with
`executable = true`, `map_at` succeeds but `try_page_attributes` decodes
`executable = false`.  The encoder stores PXN as the inverse of
`executable` and the decoder reads `executable = PXN > 0` without
inverting, so the round trip always flips the flag. -/
theorem claim_C1_roundtrip_flips_executable :
    (((TranslationTable.new KERNEL_NUM_TABLES).init (fun _ => 0)).mapAt
        ⟨0, 0x10000⟩ ⟨0, 0x10000⟩ ⟨.CacheableDRAM, .ReadWrite, true⟩
        physAddrSpaceEndExclusiveAddr).2 = none ∧
      ((((TranslationTable.new KERNEL_NUM_TABLES).init (fun _ => 0)).mapAt
          ⟨0, 0x10000⟩ ⟨0, 0x10000⟩ ⟨.CacheableDRAM, .ReadWrite, true⟩
          physAddrSpaceEndExclusiveAddr).1.tryPageAttributes 0) =
        .ok ⟨.CacheableDRAM, .ReadWrite, false⟩ :=
  ⟨rfl, rfl⟩

/-- C2 counterexample: `map_at` on a region whose second page is already
mapped does fail, but it does not leave the table unmodified: the level-3
descriptor of the first page (window 0, index 0) changes from 0 to a valid
descriptor before the failure is detected. -/
theorem claim_C2_counterexample :
    ((((TranslationTable.new KERNEL_NUM_TABLES).init (fun _ => 0)).mapAt
          ⟨0x10000, 0x20000⟩ ⟨0x10000, 0x20000⟩ ⟨.CacheableDRAM, .ReadWrite, false⟩
          physAddrSpaceEndExclusiveAddr).1.mapAt
        ⟨0, 0x20000⟩ ⟨0x40000, 0x60000⟩ ⟨.CacheableDRAM, .ReadWrite, false⟩
        physAddrSpaceEndExclusiveAddr).2.isSome = true ∧
      ((((TranslationTable.new KERNEL_NUM_TABLES).init (fun _ => 0)).mapAt
            ⟨0x10000, 0x20000⟩ ⟨0x10000, 0x20000⟩ ⟨.CacheableDRAM, .ReadWrite, false⟩
            physAddrSpaceEndExclusiveAddr).1.mapAt
          ⟨0, 0x20000⟩ ⟨0x40000, 0x60000⟩ ⟨.CacheableDRAM, .ReadWrite, false⟩
          physAddrSpaceEndExclusiveAddr).1.lvl3 0 0 ≠
        (((TranslationTable.new KERNEL_NUM_TABLES).init (fun _ => 0)).mapAt
            ⟨0x10000, 0x20000⟩ ⟨0x10000, 0x20000⟩ ⟨.CacheableDRAM, .ReadWrite, false⟩
            physAddrSpaceEndExclusiveAddr).1.lvl3 0 0 := by
  exact ⟨rfl, by decide⟩

/-- C3 counterexample: a `take_first_n_pages` request of `2^64 - 1` pages
against a one-page pool must fail by the claim (the request exceeds the
remainder and the offset arithmetic overflows), but it succeeds: the
`usize` count is reinterpreted as the `isize` value -1, the cursor moves
backwards, and the call returns `Ok` while the pool grows. -/
theorem claim_C3_counterexample :
    MemoryRegion.numPages ⟨0x10000, 0x20000⟩ = 1 ∧ (1 : Nat) < 2 ^ 64 - 1 ∧
      MemoryRegion.takeFirstNPages ⟨0x10000, 0x20000⟩ (2 ^ 64 - 1) =
        (⟨0, 0x20000⟩, .ok ⟨0x10000, 0⟩) := by
  refine ⟨rfl, by norm_num, ?_⟩
  decide

/-- C10: when `take_first_n_pages` or `PageAllocator::alloc` fails, the
receiver region (respectively the allocator) is left exactly as it was
before the call: a failed allocation never consumes pages. -/
theorem claim_C10_failure_preserves_state (r : MemoryRegion) (a : PageAllocator)
    (n : Nat) :
    (∀ e, (r.takeFirstNPages n).2 = .error e → (r.takeFirstNPages n).1 = r) ∧
      (∀ e, (a.alloc n).2 = .error e → (a.alloc n).1 = a) := by
  have htake : ∀ (r2 : MemoryRegion) (e : String),
      (r2.takeFirstNPages n).2 = .error e → (r2.takeFirstNPages n).1 = r2 := by
    intro r2 e h
    unfold MemoryRegion.takeFirstNPages at h ⊢
    cases hco : checkedOffset r2.start (usizeAsIsize n) with
    | none => simp [hco]
    | some leftEnd =>
      simp only [hco] at h ⊢
      by_cases hlt : r2.end_exclusive < leftEnd
      · simp [hlt]
      · simp [hlt] at h
  refine ⟨htake r, ?_⟩
  intro e h
  unfold PageAllocator.alloc at h ⊢
  cases hpool : a.pool with
  | none => simp [hpool]
  | some pool =>
    simp only [hpool] at h ⊢
    have := htake pool e h
    rw [this]
    cases a with
    | mk p => simp_all

/-- C10 witness: a one-page request against an empty pool and against an
uninitialized allocator both fail and leave the state unchanged. -/
theorem claim_C10_witness :
    ((MemoryRegion.takeFirstNPages ⟨0, 0⟩ 1).1 = ⟨0, 0⟩) ∧
      ((PageAllocator.alloc PageAllocator.new 1).1 = PageAllocator.new) :=
  ⟨(claim_C10_failure_preserves_state ⟨0, 0⟩ PageAllocator.new 1).1
      "Not enough free pages" (by decide),
    (claim_C10_failure_preserves_state ⟨0, 0⟩ PageAllocator.new 1).2
      "Allocator not initialized" (by decide)⟩

/-- C8: a second call to `enable_mmu_and_caching` (hardware already
reporting the regime active) returns `AlreadyEnabled` and writes no
register, leaving MAIR, TTBR0, TCR and SCTLR unchanged; and the
{Disabled, Enabled} state machine has a single one-way transition: a
successful enable ends in the Enabled state, and no operation leaves it
(the only mutator returns the state unchanged once enabled). -/
theorem claim_C8_enable_twice (s : MmuRegisters) (addr : Nat) :
    (s.isEnabled = true →
        s.enableMmuAndCaching addr = (s, some MMUEnableError.AlreadyEnabled)) ∧
      (∀ s2 : MmuRegisters,
        s.enableMmuAndCaching addr = (s2, none) → s2.isEnabled = true) := by
  constructor
  · intro h
    unfold MmuRegisters.enableMmuAndCaching
    rw [if_pos h]
  · intro s2 h
    unfold MmuRegisters.enableMmuAndCaching at h
    by_cases hen : s.isEnabled
    · rw [if_pos hen] at h
      exact absurd (congrArg Prod.snd h) (by simp)
    · rw [if_neg hen] at h
      by_cases hgr : s.tgran64Supported
      · rw [if_neg (by simp [hgr])] at h
        have hs2 : s2 = { s with
            mair_el1 := MmuRegisters.mairWriteValue
            ttbr0_el1 := MmuRegisters.ttbr0WriteValue addr
            tcr_el1 := MmuRegisters.tcrWriteValue
            sctlr_el1 := s.sctlr_el1 ||| MmuRegisters.sctlrEnableBits } :=
          (congrArg Prod.fst h).symm
        subst hs2
        unfold MmuRegisters.isEnabled
        rw [Nat.and_one_is_mod]
        simp only [decide_eq_true_eq, Nat.or_mod_two_eq_one]
        right
        decide
      · rw [if_pos (by simp [hgr])] at h
        exact absurd (congrArg Prod.snd h) (by simp)

/-- C8 witness: starting from the all-zero register state (MMU disabled,
64 KiB granule supported), one enable call succeeds and ends enabled, and
the second call returns `AlreadyEnabled` leaving the registers unchanged. -/
theorem claim_C8_enable_twice_witness :
    ((MmuRegisters.mk 0 0 0 0 0).enableMmuAndCaching 0x70000).1.isEnabled = true ∧
      (((MmuRegisters.mk 0 0 0 0 0).enableMmuAndCaching 0x70000).1.enableMmuAndCaching
          0x70000 =
        (((MmuRegisters.mk 0 0 0 0 0).enableMmuAndCaching 0x70000).1,
          some MMUEnableError.AlreadyEnabled)) := by
  have h1 := (claim_C8_enable_twice (MmuRegisters.mk 0 0 0 0 0) 0x70000).2
    ((MmuRegisters.mk 0 0 0 0 0).enableMmuAndCaching 0x70000).1 (by decide)
  exact ⟨h1,
    (claim_C8_enable_twice
      ((MmuRegisters.mk 0 0 0 0 0).enableMmuAndCaching 0x70000).1 0x70000).1 h1⟩

/-- C4: `overlaps` returns true exactly when the start page or the
inclusive last page of the argument region lies inside the receiver
region (half-open page-range membership); it is a two-point test, so
configurations without such an endpoint witness (the receiver strictly
inside the argument) are not detected.  The inclusive last page exists
when the argument region does not end at address zero. -/
theorem claim_C4_overlaps_endpoint_test (a b : MemoryRegion)
    (h : GRANULE_SIZE ≤ b.end_exclusive) :
    a.overlaps b = some true ↔
      ((a.start ≤ b.start ∧ b.start < a.end_exclusive) ∨
        (a.start ≤ b.end_exclusive - GRANULE_SIZE ∧
          b.end_exclusive - GRANULE_SIZE < a.end_exclusive)) := by
  have hoff : checkedOffset b.end_exclusive (-1) =
      some (b.end_exclusive - GRANULE_SIZE) := by
    unfold checkedOffset checkedMul checkedSub
    norm_num [GRANULE_SIZE, USIZE_BOUND]
    simp only [GRANULE_SIZE] at h
    omega
  unfold MemoryRegion.overlaps MemoryRegion.endInclusivePageAddr
  rw [hoff]
  simp only [Option.some_inj, MemoryRegion.rangeContains]
  constructor
  · intro hb
    rcases Bool.or_eq_true_iff.mp hb with hb1 | hb2
    · exact Or.inl ⟨of_decide_eq_true (Bool.and_eq_true_iff.mp hb1).1,
        of_decide_eq_true (Bool.and_eq_true_iff.mp hb1).2⟩
    · exact Or.inr ⟨of_decide_eq_true (Bool.and_eq_true_iff.mp hb2).1,
        of_decide_eq_true (Bool.and_eq_true_iff.mp hb2).2⟩
  · intro hb
    rcases hb with ⟨h1, h2⟩ | ⟨h1, h2⟩
    · exact Bool.or_eq_true_iff.mpr (Or.inl (Bool.and_eq_true_iff.mpr
        ⟨decide_eq_true h1, decide_eq_true h2⟩))
    · exact Bool.or_eq_true_iff.mpr (Or.inr (Bool.and_eq_true_iff.mpr
        ⟨decide_eq_true h1, decide_eq_true h2⟩))

/-- C4 witness: the region [0x10000, 0x30000) overlaps [0x20000, 0x50000)
exactly because the start page 0x20000 of the argument lies inside the
receiver. -/
theorem claim_C4_overlaps_endpoint_test_witness :
    MemoryRegion.overlaps ⟨0x10000, 0x30000⟩ ⟨0x20000, 0x50000⟩ = some true ↔
      (((0x10000 : Nat) ≤ 0x20000 ∧ (0x20000 : Nat) < 0x30000) ∨
        ((0x10000 : Nat) ≤ 0x50000 - GRANULE_SIZE ∧
          (0x50000 : Nat) - GRANULE_SIZE < 0x30000)) :=
  claim_C4_overlaps_endpoint_test ⟨0x10000, 0x30000⟩ ⟨0x20000, 0x50000⟩ (by decide)

/-- C5: on a mapping record whose `MAX_MAPPINGS = 20` slots are all live,
any further `add` fails with the storage-exhausted error and leaves the
record contents unchanged. -/
theorem claim_C5_add_full_fails (r : MappingRecords) (name : String)
    (vr pr : MemoryRegion) (attr : AttributeFields)
    (hlen : r.inner.length = MAX_MAPPINGS)
    (hfull : ∀ o ∈ r.inner, o.isSome = true) :
    r.add name vr pr attr = (r, some "Storage for mapping info exhausted") := by
  unfold MappingRecords.add MappingRecords.findNextFreeIdx
  have hnone : r.inner.findIdx? (fun o => o.isNone) = none := by
    rw [List.findIdx?_eq_none_iff]
    intro o ho
    cases o with
    | none => exact absurd (hfull none ho) (by simp)
    | some e => simp
  rw [hnone]

/-- C5 witness: adding a 21st entry to a record holding 20 live entries
fails with the storage-exhausted error and returns the record unchanged. -/
theorem claim_C5_add_full_fails_witness :
    MappingRecords.add
        ⟨List.replicate 20 (some (MappingRecordEntry.new "uart" ⟨0, 0x10000⟩
          ⟨0, 0x10000⟩ ⟨.Device, .ReadWrite, false⟩))⟩ "gpio"
        ⟨0x10000, 0x20000⟩ ⟨0x10000, 0x20000⟩ ⟨.Device, .ReadWrite, false⟩ =
      (⟨List.replicate 20 (some (MappingRecordEntry.new "uart" ⟨0, 0x10000⟩
          ⟨0, 0x10000⟩ ⟨.Device, .ReadWrite, false⟩))⟩,
        some "Storage for mapping info exhausted") :=
  claim_C5_add_full_fails _ "gpio" ⟨0x10000, 0x20000⟩ ⟨0x10000, 0x20000⟩
    ⟨.Device, .ReadWrite, false⟩ (by decide) (by decide)

/-- C6: `find_device_record` returns a hit only for a stored entry whose
memory class is Device and whose physical start address and page count
equal those of the queried region exactly; and whenever such an entry is
stored, the scan does return a hit.  An entry with identical physical
start and page count but class CacheableDRAM can never be the result,
since every result has class Device. -/
theorem claim_C6_find_device_record (r : MappingRecords) (R : MemoryRegion) :
    (∀ e, r.findDeviceRecord R = some e →
        some e ∈ r.inner ∧
          e.attribute_fields.mem_attributes = MemAttributes.Device ∧
          e.phys_start_addr = R.start ∧ e.num_pages = R.numPages) ∧
      ((∃ e, some e ∈ r.inner ∧
          e.attribute_fields.mem_attributes = MemAttributes.Device ∧
          e.phys_start_addr = R.start ∧ e.num_pages = R.numPages) →
        (r.findDeviceRecord R).isSome = true) := by
  constructor
  · intro e hfind
    unfold MappingRecords.findDeviceRecord at hfind
    have hmem := List.mem_of_find?_eq_some hfind
    have hpred := List.find?_some hfind
    rw [List.mem_filter] at hmem
    obtain ⟨hmem2, hdev⟩ := hmem
    rw [List.mem_filterMap] at hmem2
    obtain ⟨o, ho, hoe⟩ := hmem2
    refine ⟨by rwa [show o = some e from hoe] at ho, of_decide_eq_true hdev, ?_, ?_⟩
    · exact of_decide_eq_true (Bool.and_eq_true_iff.mp hpred).1
    · exact of_decide_eq_true (Bool.and_eq_true_iff.mp hpred).2
  · rintro ⟨e, hmem, hdev, hphys, hnum⟩
    unfold MappingRecords.findDeviceRecord
    rw [List.find?_isSome]
    refine ⟨e, ?_, ?_⟩
    · rw [List.mem_filter]
      exact ⟨List.mem_filterMap.mpr ⟨some e, hmem, rfl⟩, decide_eq_true hdev⟩
    · exact Bool.and_eq_true_iff.mpr ⟨decide_eq_true hphys, decide_eq_true hnum⟩

/-- C6 witness: a record holding a CacheableDRAM entry and a Device entry
with the same physical window: the scan for that window returns a hit, and
the hit is the Device-class entry. -/
theorem claim_C6_find_device_record_witness :
    (MappingRecords.findDeviceRecord
          ⟨[some (MappingRecordEntry.new "heap" ⟨0x30000, 0x40000⟩ ⟨0, 0x10000⟩
              ⟨.CacheableDRAM, .ReadWrite, false⟩),
            some (MappingRecordEntry.new "uart" ⟨0x40000, 0x50000⟩ ⟨0, 0x10000⟩
              ⟨.Device, .ReadWrite, false⟩)]⟩
          ⟨0, 0x10000⟩).isSome = true ∧
      (∀ e, MappingRecords.findDeviceRecord
            ⟨[some (MappingRecordEntry.new "heap" ⟨0x30000, 0x40000⟩ ⟨0, 0x10000⟩
                ⟨.CacheableDRAM, .ReadWrite, false⟩),
              some (MappingRecordEntry.new "uart" ⟨0x40000, 0x50000⟩ ⟨0, 0x10000⟩
                ⟨.Device, .ReadWrite, false⟩)]⟩
            ⟨0, 0x10000⟩ = some e →
        e.attribute_fields.mem_attributes = MemAttributes.Device) :=
  ⟨(claim_C6_find_device_record _ ⟨0, 0x10000⟩).2
      ⟨MappingRecordEntry.new "uart" ⟨0x40000, 0x50000⟩ ⟨0, 0x10000⟩
          ⟨.Device, .ReadWrite, false⟩,
        by decide, by decide, by decide, by decide⟩,
    fun e he => ((claim_C6_find_device_record _ ⟨0, 0x10000⟩).1 e he).2.1⟩

/-! ### Helper lemmas about `set_descriptor` and the `map_at` loop -/

theorem setDescriptor_err_state (t : TranslationTable) (addr d : Nat) (e : String)
    (h : (t.setDescriptor addr d).2 = some e) :
    (t.setDescriptor addr d).1 = t := by
  rcases hidx : t.lvl2Lvl3Index addr with e2 | ⟨a, b⟩ <;>
    simp only [TranslationTable.setDescriptor, hidx] at h ⊢
  by_cases hv : descIsValid (t.lvl3 a b)
  · simp only [hv, if_true]
  · simp only [hv] at h
    simp at h

theorem setDescriptor_ok_state (t : TranslationTable) (addr d : Nat)
    (h : (t.setDescriptor addr d).2 = none) :
    ∃ a b, t.lvl2Lvl3Index addr = .ok (a, b) ∧
      descIsValid (t.lvl3 a b) = false ∧
      (t.setDescriptor addr d).1 =
        { t with lvl3 := fun i j => if i = a ∧ j = b then d else t.lvl3 i j } := by
  cases hidx : t.lvl2Lvl3Index addr with
  | error e2 =>
    simp only [TranslationTable.setDescriptor, hidx] at h
    simp at h
  | ok ab =>
    obtain ⟨a, b⟩ := ab
    simp only [TranslationTable.setDescriptor, hidx] at h ⊢
    by_cases hv : descIsValid (t.lvl3 a b)
    · simp only [hv, if_true] at h
      simp at h
    · refine ⟨a, b, rfl, by simpa using hv, ?_⟩
      rw [if_neg hv]

theorem lvl2Lvl3Index_congr (t t2 : TranslationTable) (addr : Nat)
    (h : t.numTables = t2.numTables) :
    t.lvl2Lvl3Index addr = t2.lvl2Lvl3Index addr := by
  unfold TranslationTable.lvl2Lvl3Index
  rw [h]

theorem setDescriptor_preserves_valid (t : TranslationTable) (addr d i j : Nat)
    (h : descIsValid (t.lvl3 i j) = true) :
    (t.setDescriptor addr d).1.lvl3 i j = t.lvl3 i j := by
  rcases hidx : t.lvl2Lvl3Index addr with e2 | ⟨a, b⟩ <;>
    simp only [TranslationTable.setDescriptor, hidx]
  by_cases hv : descIsValid (t.lvl3 a b)
  · rw [if_pos hv]
  · rw [if_neg hv]
    simp only
    rw [if_neg]
    rintro ⟨rfl, rfl⟩
    rw [h] at hv
    exact hv rfl

theorem mapPages_preserves_valid (pairs : List (Nat × Nat)) :
    ∀ (t : TranslationTable) (attr : AttributeFields) (i j : Nat),
      descIsValid (t.lvl3 i j) = true →
      (t.mapPages pairs attr).1.lvl3 i j = t.lvl3 i j := by
  induction pairs with
  | nil => intro t attr i j _; rfl
  | cons pv rest ih =>
    intro t attr i j h
    obtain ⟨p, v⟩ := pv
    rcases hsd : t.setDescriptor v (pageDescriptorNew p attr) with ⟨t2, oe⟩
    cases oe with
    | none =>
      have hstep : t.mapPages ((p, v) :: rest) attr = t2.mapPages rest attr := by
        simp only [TranslationTable.mapPages, hsd]
      rw [hstep]
      have hpres : t2.lvl3 i j = t.lvl3 i j := by
        have := setDescriptor_preserves_valid t v (pageDescriptorNew p attr) i j h
        rwa [hsd] at this
      rw [ih t2 attr i j (by rw [hpres]; exact h), hpres]
    | some e =>
      have hstep : t.mapPages ((p, v) :: rest) attr = (t2, some e) := by
        simp only [TranslationTable.mapPages, hsd]
      rw [hstep]
      have ht2 : t2 = t := by
        have := setDescriptor_err_state t v (pageDescriptorNew p attr) e (by rw [hsd])
        rwa [hsd] at this
      rw [ht2]

theorem mapPages_some_of_mapped (pairs : List (Nat × Nat)) :
    ∀ (t : TranslationTable) (attr : AttributeFields),
      (∃ pv ∈ pairs, ∃ a b, t.lvl2Lvl3Index pv.2 = .ok (a, b) ∧
        descIsValid (t.lvl3 a b) = true) →
      (t.mapPages pairs attr).2.isSome = true := by
  induction pairs with
  | nil => rintro t attr ⟨pv, hpv, _⟩; exact absurd hpv (List.not_mem_nil pv)
  | cons pv0 rest ih =>
    rintro t attr ⟨pv, hpv, a, b, hidx, hval⟩
    obtain ⟨p0, v0⟩ := pv0
    rcases hsd : t.setDescriptor v0 (pageDescriptorNew p0 attr) with ⟨t2, oe⟩
    cases oe with
    | some e =>
      have hstep : t.mapPages ((p0, v0) :: rest) attr = (t2, some e) := by
        simp only [TranslationTable.mapPages, hsd]
      rw [hstep]
      rfl
    | none =>
      have hstep : t.mapPages ((p0, v0) :: rest) attr = t2.mapPages rest attr := by
        simp only [TranslationTable.mapPages, hsd]
      rw [hstep]
      obtain ⟨a0, b0, hidx0, hval0, ht2⟩ :=
        setDescriptor_ok_state t v0 (pageDescriptorNew p0 attr) (by rw [hsd])
      rw [hsd] at ht2
      simp only at ht2
      have hpv_rest : pv ∈ rest := by
        rcases List.mem_cons.mp hpv with heq | hmem
        · subst heq
          simp only at hidx
          have hpair := Except.ok.inj (hidx.symm.trans hidx0)
          simp only [Prod.mk.injEq] at hpair
          obtain ⟨rfl, rfl⟩ := hpair
          rw [hval] at hval0
          exact absurd hval0 (by simp)
        · exact hmem
      apply ih t2 attr
      refine ⟨pv, hpv_rest, a, b, ?_, ?_⟩
      · rw [← lvl2Lvl3Index_congr t t2 pv.2 (by rw [ht2])]
        exact hidx
      · rw [ht2]
        simp only
        rw [if_neg]
        · exact hval
        · rintro ⟨rfl, rfl⟩
          rw [hval] at hval0
          exact absurd hval0 (by simp)

/-- C2 (amended): `map_at` on a region of which some page is already
validly mapped fails with an error, and no level-3 descriptor that was
valid before the call is modified; descriptors for pages of the region
preceding the failure point are written, so the table as a whole is not
necessarily unmodified (it is unmodified when the already-mapped page is
the first page of the region). -/
theorem claim_C2_map_at_already_mapped (t : TranslationTable)
    (vr pr : MemoryRegion) (attr : AttributeFields) (physEnd : Nat)
    (hmapped : ∃ pv ∈ pr.pages.zip vr.pages, ∃ a b,
      t.lvl2Lvl3Index pv.2 = .ok (a, b) ∧ descIsValid (t.lvl3 a b) = true) :
    (t.mapAt vr pr attr physEnd).2.isSome = true ∧
      ∀ i j, descIsValid (t.lvl3 i j) = true →
        (t.mapAt vr pr attr physEnd).1.lvl3 i j = t.lvl3 i j := by
  unfold TranslationTable.mapAt
  by_cases hinit : t.initialized
  · rw [if_neg (by simp [hinit])]
    by_cases hsz : vr.size ≠ pr.size
    · rw [if_pos hsz]
      exact ⟨rfl, fun i j _ => rfl⟩
    · rw [if_neg hsz]
      by_cases hbd : physEnd < pr.end_exclusive
      · rw [if_pos hbd]
        exact ⟨rfl, fun i j _ => rfl⟩
      · rw [if_neg hbd]
        exact ⟨mapPages_some_of_mapped _ t attr hmapped,
          fun i j h => mapPages_preserves_valid _ t attr i j h⟩
  · rw [if_pos (by simp [hinit])]
    exact ⟨rfl, fun i j _ => rfl⟩

/-- C2 witness: with page 0x10000 already mapped, mapping the two-page
region [0x0, 0x20000) fails, and every previously valid level-3 descriptor
is unchanged. -/
theorem claim_C2_map_at_already_mapped_witness :
    let t1 := (((TranslationTable.new 2).init (fun _ => 0)).mapAt
        ⟨0x10000, 0x20000⟩ ⟨0x10000, 0x20000⟩ ⟨.CacheableDRAM, .ReadWrite, false⟩
        physAddrSpaceEndExclusiveAddr).1
    (t1.mapAt ⟨0, 0x20000⟩ ⟨0x40000, 0x60000⟩ ⟨.CacheableDRAM, .ReadWrite, false⟩
        physAddrSpaceEndExclusiveAddr).2.isSome = true ∧
      ∀ i j, descIsValid (t1.lvl3 i j) = true →
        (t1.mapAt ⟨0, 0x20000⟩ ⟨0x40000, 0x60000⟩ ⟨.CacheableDRAM, .ReadWrite, false⟩
            physAddrSpaceEndExclusiveAddr).1.lvl3 i j = t1.lvl3 i j := by
  intro t1
  exact claim_C2_map_at_already_mapped t1 ⟨0, 0x20000⟩ ⟨0x40000, 0x60000⟩
    ⟨.CacheableDRAM, .ReadWrite, false⟩ physAddrSpaceEndExclusiveAddr
    ⟨(0x50000, 0x10000), by decide, 0, 1, by decide, by decide⟩


theorem descIsValid_pageDescriptorNew (p : Nat) (attr : AttributeFields) :
    descIsValid (pageDescriptorNew p attr) = true := by
  simp only [descIsValid, pageDescriptorNew, decide_eq_true_eq]
  rw [Nat.and_one_is_mod]
  simp [Nat.or_mod_two_eq_one]

theorem mapPages_cons_ok (t : TranslationTable) (p v : Nat)
    (rest : List (Nat × Nat)) (attr : AttributeFields) (a b : Nat)
    (hidx : t.lvl2Lvl3Index v = .ok (a, b))
    (hinv : descIsValid (t.lvl3 a b) = false) :
    t.mapPages ((p, v) :: rest) attr =
      ({ t with lvl3 := fun i j =>
          if i = a ∧ j = b then pageDescriptorNew p attr
          else t.lvl3 i j }).mapPages rest attr := by
  have hsd : t.setDescriptor v (pageDescriptorNew p attr) =
      ({ t with lvl3 := fun i j =>
          if i = a ∧ j = b then pageDescriptorNew p attr
          else t.lvl3 i j }, none) := by
    simp only [TranslationTable.setDescriptor, hidx]
    rw [if_neg (by simp [hinv])]
  simp only [TranslationTable.mapPages, hsd]

/-- C7: with a 1 GiB address space and 64 KiB granule the translation
table has exactly 2 level-2 windows; on an initialized table, mapping a
128 KiB region at virtual address 0x0 succeeds and writes exactly the two
contiguous level-3 descriptors at indices 0 and 1 of window 0 (both become
valid), leaving every other level-3 descriptor untouched. -/
theorem claim_C7_scenario :
    KERNEL_NUM_TABLES = 2 ∧
      ∀ (lvl3Phys : Nat → Nat) (attr : AttributeFields),
        (((TranslationTable.new 2).init lvl3Phys).mapAt ⟨0, 0x20000⟩ ⟨0, 0x20000⟩
            attr physAddrSpaceEndExclusiveAddr).2 = none ∧
        descIsValid ((((TranslationTable.new 2).init lvl3Phys).mapAt ⟨0, 0x20000⟩
            ⟨0, 0x20000⟩ attr physAddrSpaceEndExclusiveAddr).1.lvl3 0 0) = true ∧
        descIsValid ((((TranslationTable.new 2).init lvl3Phys).mapAt ⟨0, 0x20000⟩
            ⟨0, 0x20000⟩ attr physAddrSpaceEndExclusiveAddr).1.lvl3 0 1) = true ∧
        ∀ i j, ¬(i = 0 ∧ j < 2) →
          (((TranslationTable.new 2).init lvl3Phys).mapAt ⟨0, 0x20000⟩ ⟨0, 0x20000⟩
              attr physAddrSpaceEndExclusiveAddr).1.lvl3 i j =
            ((TranslationTable.new 2).init lvl3Phys).lvl3 i j := by
  refine ⟨rfl, ?_⟩
  intro lvl3Phys attr
  set t0 : TranslationTable := (TranslationTable.new 2).init lvl3Phys with ht0
  set t1 : TranslationTable := { t0 with lvl3 := fun i j =>
      if i = 0 ∧ j = 0 then pageDescriptorNew 0 attr else t0.lvl3 i j } with ht1
  set t2 : TranslationTable := { t1 with lvl3 := fun i j =>
      if i = 0 ∧ j = 1 then pageDescriptorNew 0x10000 attr else t1.lvl3 i j } with ht2
  have hl00 : t0.lvl3 0 0 = 0 := rfl
  have hl01 : t0.lvl3 0 1 = 0 := rfl
  have hstep1 : t0.mapPages [(0, 0), (0x10000, 0x10000)] attr =
      t1.mapPages [(0x10000, 0x10000)] attr := by
    apply mapPages_cons_ok t0 0 0 _ attr 0 0 rfl
    rw [hl00]
    rfl
  have ht1l : t1.lvl3 0 1 = 0 := by
    rw [ht1]
    show (if (0 : Nat) = 0 ∧ (1 : Nat) = 0 then pageDescriptorNew 0 attr
      else t0.lvl3 0 1) = 0
    rw [if_neg (by norm_num), hl01]
  have hstep2 : t1.mapPages [(0x10000, 0x10000)] attr = t2.mapPages [] attr := by
    apply mapPages_cons_ok t1 0x10000 0x10000 _ attr 0 1 rfl
    rw [ht1l]
    rfl
  have hrun : t0.mapAt ⟨0, 0x20000⟩ ⟨0, 0x20000⟩ attr physAddrSpaceEndExclusiveAddr =
      (t2, none) := by
    have hpages : MemoryRegion.pages ⟨0, 0x20000⟩ = [0, 0x10000] := rfl
    have : t0.mapAt ⟨0, 0x20000⟩ ⟨0, 0x20000⟩ attr physAddrSpaceEndExclusiveAddr =
        t0.mapPages [(0, 0), (0x10000, 0x10000)] attr := by
      unfold TranslationTable.mapAt
      rw [if_neg (by rw [show t0.initialized = true from rfl]; simp),
        if_neg (by simp [MemoryRegion.size]),
        if_neg (by simp [physAddrSpaceEndExclusiveAddr]), hpages]
      rfl
    rw [this, hstep1, hstep2]
    rfl
  rw [hrun]
  refine ⟨rfl, ?_, ?_, ?_⟩
  · have : t2.lvl3 0 0 = pageDescriptorNew 0 attr := by
      rw [ht2]
      show (if (0 : Nat) = 0 ∧ (0 : Nat) = 1 then pageDescriptorNew 0x10000 attr
        else t1.lvl3 0 0) = pageDescriptorNew 0 attr
      rw [if_neg (by norm_num), ht1]
      show (if (0 : Nat) = 0 ∧ (0 : Nat) = 0 then pageDescriptorNew 0 attr
        else t0.lvl3 0 0) = pageDescriptorNew 0 attr
      rw [if_pos ⟨rfl, rfl⟩]
    rw [this]
    exact descIsValid_pageDescriptorNew 0 attr
  · have : t2.lvl3 0 1 = pageDescriptorNew 0x10000 attr := by
      rw [ht2]
      show (if (0 : Nat) = 0 ∧ (1 : Nat) = 1 then pageDescriptorNew 0x10000 attr
        else t1.lvl3 0 1) = pageDescriptorNew 0x10000 attr
      rw [if_pos ⟨rfl, rfl⟩]
    rw [this]
    exact descIsValid_pageDescriptorNew 0x10000 attr
  · intro i j hij
    rw [ht2]
    show (if i = 0 ∧ j = 1 then pageDescriptorNew 0x10000 attr
      else t1.lvl3 i j) = t0.lvl3 i j
    rw [if_neg (by rintro ⟨rfl, rfl⟩; exact hij ⟨rfl, by norm_num⟩), ht1]
    show (if i = 0 ∧ j = 0 then pageDescriptorNew 0 attr
      else t0.lvl3 i j) = t0.lvl3 i j
    rw [if_neg (by rintro ⟨rfl, rfl⟩; exact hij ⟨rfl, by norm_num⟩)]


/-- C7 witness: the descriptor at window 1, index 5 is untouched by the
128 KiB mapping at address 0x0. -/
theorem claim_C7_scenario_witness :
    (((TranslationTable.new 2).init (fun _ => 0)).mapAt ⟨0, 0x20000⟩ ⟨0, 0x20000⟩
        ⟨.CacheableDRAM, .ReadWrite, false⟩ physAddrSpaceEndExclusiveAddr).1.lvl3 1 5 =
      ((TranslationTable.new 2).init (fun _ => 0)).lvl3 1 5 :=
  (claim_C7_scenario.2 (fun _ => 0) ⟨.CacheableDRAM, .ReadWrite, false⟩).2.2.2 1 5
    (by decide)


open MappingRecords in
theorem mem_insertByKey (x y : Option MappingRecordEntry)
    (l : List (Option MappingRecordEntry)) :
    y ∈ insertByKey x l ↔ y = x ∨ y ∈ l := by
  induction l with
  | nil => simp [insertByKey]
  | cons z zs ih =>
    unfold insertByKey
    by_cases h : sortKey x ≤ sortKey z
    · rw [if_pos h]
      simp [List.mem_cons]
    · rw [if_neg h]
      simp [List.mem_cons, ih]
      tauto

open MappingRecords in
theorem pairwise_insertByKey (x : Option MappingRecordEntry)
    (l : List (Option MappingRecordEntry))
    (h : List.Pairwise (fun o1 o2 => sortKey o1 ≤ sortKey o2) l) :
    List.Pairwise (fun o1 o2 => sortKey o1 ≤ sortKey o2) (insertByKey x l) := by
  induction l with
  | nil => simp [insertByKey]
  | cons z zs ih =>
    unfold insertByKey
    by_cases hx : sortKey x ≤ sortKey z
    · rw [if_pos hx]
      exact List.Pairwise.cons
        (fun y hy => by
          rcases List.mem_cons.mp hy with rfl | hy2
          · exact hx
          · exact le_trans hx (List.rel_of_pairwise_cons h hy2))
        h
    · rw [if_neg hx]
      exact List.Pairwise.cons
        (fun y hy => by
          rcases (mem_insertByKey x y zs).mp hy with rfl | hy2
          · exact le_of_not_le hx
          · exact List.rel_of_pairwise_cons h hy2)
        (ih h.of_cons)

open MappingRecords in
theorem pairwise_sortByKey (l : List (Option MappingRecordEntry)) :
    List.Pairwise (fun o1 o2 => sortKey o1 ≤ sortKey o2) (sortByKey l) := by
  induction l with
  | nil => simp [sortByKey]
  | cons x xs ih => exact pairwise_insertByKey x (sortByKey xs) ih

open MappingRecords in
theorem isSortedByKey_pairwise (l : List (Option MappingRecordEntry)) :
    isSortedByKey l = true →
    List.Pairwise (fun o1 o2 => sortKey o1 ≤ sortKey o2) l := by
  induction l with
  | nil => intro _; exact List.Pairwise.nil
  | cons a t ih =>
    cases t with
    | nil => intro _; simp
    | cons b rest =>
      intro h
      unfold isSortedByKey at h
      obtain ⟨hab, hrest⟩ := Bool.and_eq_true_iff.mp h
      have hp := ih hrest
      exact List.Pairwise.cons
        (fun y hy => by
          rcases List.mem_cons.mp hy with rfl | hy2
          · exact of_decide_eq_true hab
          · exact le_trans (of_decide_eq_true hab)
              (List.rel_of_pairwise_cons hp hy2))
        hp

theorem filterMap_id_map_some (l : List MappingRecordEntry) :
    (l.map some).filterMap id = l := by
  induction l with
  | nil => rfl
  | cons e es ih => simp [ih]

theorem filterMap_id_replicate_none (m : Nat) :
    (List.replicate m (none : Option MappingRecordEntry)).filterMap id = [] := by
  induction m with
  | zero => rfl
  | succ k ih => simp [List.replicate_succ, ih]

theorem findIdx_isNone_front (es : List MappingRecordEntry) (m : Nat) :
    (es.map some ++ List.replicate m none).findIdx?
        (fun o : Option MappingRecordEntry => o.isNone) =
      if m = 0 then none else some es.length := by
  induction es with
  | nil =>
    cases m with
    | zero => simp
    | succ k => simp [List.replicate_succ]
  | cons e es ih =>
    simp only [List.map_cons, List.cons_append, List.findIdx?_cons,
      List.findIdx?_succ]
    rw [ih]
    cases m with
    | zero => simp
    | succ k => simp

theorem set_first_free_slot (es : List MappingRecordEntry) (k : Nat)
    (v : MappingRecordEntry) :
    (es.map some ++ List.replicate (k + 1) none).set es.length (some v) =
      (es ++ [v]).map some ++ List.replicate k none := by
  induction es with
  | nil => simp [List.replicate_succ]
  | cons e es ih => simp [ih]

theorem size_prefix_form (es : List MappingRecordEntry) (m : Nat) :
    (MappingRecords.mk (es.map some ++ List.replicate m none)).size = es.length := by
  unfold MappingRecords.size
  rw [List.filter_append]
  have h1 : (es.map some).filter (fun o => o.isSome) = es.map some :=
    List.filter_eq_self.mpr (by
      intro o ho
      rcases List.mem_map.mp ho with ⟨e, _, rfl⟩
      rfl)
  have h2 : (List.replicate m (none : Option MappingRecordEntry)).filter
      (fun o => o.isSome) = [] :=
    List.filter_eq_nil_iff.mpr (by
      intro o ho
      rw [List.eq_of_mem_replicate ho]
      simp)
  rw [h1, h2, List.append_nil, List.length_map]

/-- C9: after every successful `add` on a reachable mapping-record state
(live entries form a prefix: entries are only appended, never removed), the
live entries are sorted by ascending virtual start address; and the re-sort
is skipped (a no-op) when the live entries are already ordered. -/
theorem claim_C9_sorted_after_add :
    (∀ (r : MappingRecords) (name : String) (vr pr : MemoryRegion)
        (attr : AttributeFields) (r2 : MappingRecords),
      (∃ (es : List MappingRecordEntry) (m : Nat),
        r.inner = es.map some ++ List.replicate m none) →
      r.add name vr pr attr = (r2, none) →
      List.Pairwise (fun e1 e2 => e1.virt_start_addr ≤ e2.virt_start_addr)
        (r2.inner.filterMap id)) ∧
    (∀ r : MappingRecords,
      MappingRecords.isSortedByKey (r.inner.take r.size) = true → r.sort = r) := by
  constructor
  · rintro r name vr pr attr r2 ⟨es, m, hpre⟩ hadd
    unfold MappingRecords.add MappingRecords.findNextFreeIdx at hadd
    rw [hpre, findIdx_isNone_front es m] at hadd
    cases m with
    | zero =>
      rw [if_pos rfl] at hadd
      exact absurd (congrArg Prod.snd hadd) (by simp)
    | succ k =>
      rw [if_neg (by simp)] at hadd
      simp only at hadd
      have hr2 : r2 = MappingRecords.sort
          ⟨((es.map some ++ List.replicate (k + 1) none).set es.length
            (some (MappingRecordEntry.new name vr pr attr)))⟩ :=
        (congrArg Prod.fst hadd).symm
      set entry := MappingRecordEntry.new name vr pr attr with hentry
      rw [set_first_free_slot es k entry] at hr2
      set es2 := es ++ [entry] with hes2
      have hsize := size_prefix_form es2 k
      unfold MappingRecords.sort at hr2
      simp only [hsize] at hr2
      rw [List.take_left' (by rw [List.length_map]),
        List.drop_left' (by rw [List.length_map])] at hr2
      by_cases hsorted : MappingRecords.isSortedByKey (es2.map some)
      · rw [if_pos hsorted] at hr2
        subst hr2
        simp only [List.filterMap_append, filterMap_id_map_some,
          filterMap_id_replicate_none, List.append_nil]
        have hpw := isSortedByKey_pairwise (es2.map some) hsorted
        rw [List.pairwise_map] at hpw
        exact hpw
      · rw [if_neg hsorted] at hr2
        subst hr2
        simp only [List.filterMap_append, filterMap_id_replicate_none,
          List.append_nil]
        refine List.Pairwise.filterMap id ?_
          (pairwise_sortByKey (es2.map some))
        intro o o' hoo b hb b' hb'
        rw [Option.mem_def] at hb hb'
        have hob : o = some b := hb
        have hob' : o' = some b' := hb'
        rw [hob, hob'] at hoo
        exact hoo
  · intro r h
    unfold MappingRecords.sort
    simp only
    rw [if_pos h]


/-- C9 witness: adding one entry to the empty record yields a record whose
live entries are sorted, and the sort on the already-ordered empty record
is a no-op. -/
theorem claim_C9_sorted_after_add_witness :
    List.Pairwise (fun e1 e2 : MappingRecordEntry =>
        e1.virt_start_addr ≤ e2.virt_start_addr)
      (((MappingRecords.new.add "mmio" ⟨0x20000, 0x30000⟩ ⟨0, 0x10000⟩
          ⟨.Device, .ReadWrite, false⟩).1).inner.filterMap id) ∧
      MappingRecords.new.sort = MappingRecords.new :=
  ⟨claim_C9_sorted_after_add.1 MappingRecords.new "mmio" ⟨0x20000, 0x30000⟩
      ⟨0, 0x10000⟩ ⟨.Device, .ReadWrite, false⟩
      (MappingRecords.new.add "mmio" ⟨0x20000, 0x30000⟩ ⟨0, 0x10000⟩
        ⟨.Device, .ReadWrite, false⟩).1
      ⟨[], 20, rfl⟩ (by decide),
    claim_C9_sorted_after_add.2 MappingRecords.new (by decide)⟩


theorem usizeAsIsize_small (n : Nat) (h : n < 2 ^ 63) : usizeAsIsize n = (n : Int) := by
  unfold usizeAsIsize
  rw [if_pos h]

theorem checkedOffset_nat (a n : Nat) (h : a + n * GRANULE_SIZE < USIZE_BOUND) :
    checkedOffset a (n : Int) = some (a + n * GRANULE_SIZE) := by
  unfold checkedOffset
  by_cases hn : n = 0
  · subst hn
    norm_num
  · rw [if_neg (by exact_mod_cast hn)]
    have hmul : checkedMul (Int.natAbs (n : Int)) GRANULE_SIZE =
        some (n * GRANULE_SIZE) := by
      unfold checkedMul
      rw [Int.natAbs_ofNat,
        if_pos (lt_of_le_of_lt (Nat.le_add_left _ _) h)]
    rw [hmul]
    show (if 0 < (n : Int) then checkedAdd a (n * GRANULE_SIZE)
      else checkedSub a (n * GRANULE_SIZE)) = some (a + n * GRANULE_SIZE)
    rw [if_pos (by exact_mod_cast Nat.pos_of_ne_zero hn)]
    unfold checkedAdd
    rw [if_pos h]

theorem checkedOffset_nat_some (a n v : Nat)
    (h : checkedOffset a (n : Int) = some v) : v = a + n * GRANULE_SIZE := by
  unfold checkedOffset at h
  by_cases hn : n = 0
  · subst hn
    norm_num at h
    omega
  · rw [if_neg (by exact_mod_cast hn)] at h
    have hd : ∀ d, checkedMul (Int.natAbs (n : Int)) GRANULE_SIZE = some d →
        d = n * GRANULE_SIZE := by
      intro d hdm
      unfold checkedMul at hdm
      rw [Int.natAbs_ofNat] at hdm
      by_cases hlt : n * GRANULE_SIZE < USIZE_BOUND
      · rw [if_pos hlt] at hdm
        exact (Option.some_inj.mp hdm).symm
      · rw [if_neg hlt] at hdm
        exact absurd hdm (by simp)
    cases hm : checkedMul (Int.natAbs (n : Int)) GRANULE_SIZE with
    | none => rw [hm] at h; exact absurd h (by simp)
    | some d =>
      rw [hm] at h
      have hdd := hd d hm
      subst hdd
      have h2 : (if 0 < (n : Int) then checkedAdd a (n * GRANULE_SIZE)
          else checkedSub a (n * GRANULE_SIZE)) = some v := h
      rw [if_pos (show (0 : Int) < (n : Int) by
        exact_mod_cast Nat.pos_of_ne_zero hn)] at h2
      unfold checkedAdd at h2
      replace h := h2
      by_cases hlt : a + n * GRANULE_SIZE < USIZE_BOUND
      · rw [if_pos hlt] at h
        exact (Option.some_inj.mp h).symm
      · rw [if_neg hlt] at h
        exact absurd h (by simp)

theorem take_small_success (r : MemoryRegion) (n : Nat) (hn : n < 2 ^ 63)
    (he : r.end_exclusive < USIZE_BOUND)
    (hfit : r.start + n * GRANULE_SIZE ≤ r.end_exclusive) :
    r.takeFirstNPages n =
      (⟨r.start + n * GRANULE_SIZE, r.end_exclusive⟩,
        .ok ⟨r.start, r.start + n * GRANULE_SIZE⟩) := by
  simp only [MemoryRegion.takeFirstNPages]
  rw [usizeAsIsize_small n hn,
    checkedOffset_nat r.start n (lt_of_le_of_lt hfit he)]
  show (if r.end_exclusive < r.start + n * GRANULE_SIZE then _ else _) = _
  rw [if_neg (not_lt.mpr hfit)]

theorem take_small_failure (r : MemoryRegion) (n : Nat) (hn : n < 2 ^ 63)
    (hnofit : r.end_exclusive < r.start + n * GRANULE_SIZE) :
    ∃ e, r.takeFirstNPages n = (r, .error e) := by
  simp only [MemoryRegion.takeFirstNPages]
  rw [usizeAsIsize_small n hn]
  cases hco : checkedOffset r.start (n : Int) with
  | none => exact ⟨"Overflow while calculating left_end_exclusive", rfl⟩
  | some v =>
    have hv := checkedOffset_nat_some r.start n v hco
    refine ⟨"Not enough free pages", ?_⟩
    show (if r.end_exclusive < v then
        ((r, Except.error "Not enough free pages") :
          MemoryRegion × Except String MemoryRegion)
      else (⟨v, r.end_exclusive⟩, Except.ok ⟨r.start, v⟩)) =
      (r, Except.error "Not enough free pages")
    rw [if_pos (by omega)]

theorem runAllocs_eq_spec (reqs : List Nat) :
    ∀ r : MemoryRegion, r.end_exclusive < USIZE_BOUND →
      (∀ n ∈ reqs, n < 2 ^ 63) →
      (runAllocs r reqs).1 = specAllocs r.start r.end_exclusive reqs := by
  induction reqs with
  | nil => intro r _ _; rfl
  | cons n ns ih =>
    intro r he hreqs
    by_cases hfit : r.start + n * GRANULE_SIZE ≤ r.end_exclusive
    · have htake := take_small_success r n (hreqs n (by simp)) he hfit
      have hrun : (runAllocs r (n :: ns)).1 =
          some ⟨r.start, r.start + n * GRANULE_SIZE⟩ ::
            (runAllocs ⟨r.start + n * GRANULE_SIZE, r.end_exclusive⟩ ns).1 := by
        simp only [runAllocs, htake]
        rfl
      rw [hrun]
      unfold specAllocs
      rw [if_pos hfit]
      congr 1
      exact ih ⟨r.start + n * GRANULE_SIZE, r.end_exclusive⟩ he
        (fun k hk => hreqs k (by simp [hk]))
    · obtain ⟨e0, htake⟩ := take_small_failure r n (hreqs n (by simp))
        (by omega)
      have hrun : (runAllocs r (n :: ns)).1 =
          none :: (runAllocs r ns).1 := by
        simp only [runAllocs, htake]
        rfl
      rw [hrun]
      unfold specAllocs
      rw [if_neg hfit]
      congr 1
      exact ih r he (fun k hk => hreqs k (by simp [hk]))

theorem specAllocs_some_start_ge (reqs : List Nat) :
    ∀ (s e : Nat) (a : MemoryRegion), some a ∈ specAllocs s e reqs →
      s ≤ a.start := by
  induction reqs with
  | nil => intro s e a h; exact absurd h (List.not_mem_nil _)
  | cons n ns ih =>
    intro s e a h
    unfold specAllocs at h
    by_cases hfit : s + n * GRANULE_SIZE ≤ e
    · rw [if_pos hfit] at h
      rcases List.mem_cons.mp h with heq | hmem
      · obtain rfl : a = ⟨s, s + n * GRANULE_SIZE⟩ := Option.some_inj.mp heq
        exact le_refl s
      · exact le_trans (Nat.le_add_right s _) (ih (s + n * GRANULE_SIZE) e a hmem)
    · rw [if_neg hfit] at h
      rcases List.mem_cons.mp h with heq | hmem
      · exact absurd heq (by simp)
      · exact ih s e a hmem

theorem specAllocs_pairwise_disjoint (reqs : List Nat) :
    ∀ s e : Nat, List.Pairwise (fun o1 o2 => ∀ a b : MemoryRegion,
        o1 = some a → o2 = some b → a.end_exclusive ≤ b.start)
      (specAllocs s e reqs) := by
  induction reqs with
  | nil => intro s e; exact List.Pairwise.nil
  | cons n ns ih =>
    intro s e
    unfold specAllocs
    by_cases hfit : s + n * GRANULE_SIZE ≤ e
    · rw [if_pos hfit]
      refine List.Pairwise.cons ?_ (ih _ e)
      intro o2 ho2 a b ha hb
      obtain rfl : a = ⟨s, s + n * GRANULE_SIZE⟩ := Option.some_inj.mp ha.symm
      exact specAllocs_some_start_ge ns (s + n * GRANULE_SIZE) e b (hb ▸ ho2)
    · rw [if_neg hfit]
      refine List.Pairwise.cons ?_ (ih s e)
      intro o2 _ a b ha _
      exact absurd ha (by simp)

/-- C3 (amended): for requests of fewer than 2^63 pages (so the internal
`usize`-to-`isize` cast preserves the count), a sequence of
`take_first_n_pages` / `alloc` requests behaves as bump allocation: each
request succeeds exactly when it fits the pages remaining (offset-arithmetic
overflow also fails), the region returned for the i-th successful request
starts where the previous success ended and the pool cursor advances by
exactly the granted pages, and all successfully returned sub-regions are
pairwise disjoint. -/
theorem claim_C3_bump_allocation (r : MemoryRegion) (reqs : List Nat)
    (he : r.end_exclusive < USIZE_BOUND)
    (hreqs : ∀ n ∈ reqs, 0 < n ∧ n < 2 ^ 63) :
    (runAllocs r reqs).1 = specAllocs r.start r.end_exclusive reqs ∧
      List.Pairwise (fun o1 o2 => ∀ a b : MemoryRegion,
          o1 = some a → o2 = some b → a.end_exclusive ≤ b.start)
        (runAllocs r reqs).1 := by
  have heq := runAllocs_eq_spec reqs r he (fun n hn => (hreqs n hn).2)
  exact ⟨heq, heq ▸ specAllocs_pairwise_disjoint reqs r.start r.end_exclusive⟩

/-- C3 witness: on a 3-page pool with requests [1, 3, 2], the first and
third requests succeed with contiguous disjoint regions and the second
fails, exactly as the bump-allocation specification predicts. -/
theorem claim_C3_bump_allocation_witness :
    (runAllocs ⟨0, 0x30000⟩ [1, 3, 2]).1 = specAllocs 0 0x30000 [1, 3, 2] ∧
      List.Pairwise (fun o1 o2 => ∀ a b : MemoryRegion,
          o1 = some a → o2 = some b → a.end_exclusive ≤ b.start)
        (runAllocs ⟨0, 0x30000⟩ [1, 3, 2]).1 :=
  claim_C3_bump_allocation ⟨0, 0x30000⟩ [1, 3, 2] (by norm_num [USIZE_BOUND])
    (by norm_num)


end Rp4os
